import Mathlib

/-!
Shallow embedding of the `bulk-idl` IDL generator (src/src/main.rs) and
verification of its specification. The embedding models the syn AST shapes
the program inspects (top-level items: functions, structs, enums) and the
pure extraction functions `collect_instructions`, `collect_accounts`,
`collect_types`, together with the manifest reader `extract_program_name`
over a model of TOML values. External effects (process spawning, file IO)
are out of scope of the claims and are represented only by the explicit
outcome alternatives of `ManifestInput`.
-/

namespace BulkIdl

/-! ### Syntax-tree data model (shallow embedding of the syn types used) -/

/-- Model of `syn::Type`: a recursive type expression. Covers the shapes the
renderer distinguishes: paths with optional generic arguments, references,
tuples and fixed-size arrays. -/
inductive Ty where
  | path (segments : List String) (args : List Ty)
  | ref (inner : Ty)
  | tuple (elems : List Ty)
  | arr (elem : Ty) (len : Nat)

/-- Model of `syn::Attribute`: only the path matters to the program.
The path is a list of segments; `attr.path().is_ident(s)` holds exactly when
the path is the single segment `s`. -/
structure Attribute where
  path : List String
deriving DecidableEq, Repr

/-- Model of `syn::Pat` as scrutinised by `parse_instruction_fn`: either a
simple identifier binding or anything else. -/
inductive Pat where
  | ident (name : String)
  | other
deriving DecidableEq, Repr

/-- Model of `syn::FnArg`: a receiver (`self`) or a typed pattern. -/
inductive FnArg where
  | receiver
  | typed (pat : Pat) (ty : Ty)

/-- Model of `syn::Signature`: the function name and its inputs. -/
structure Signature where
  ident : String
  inputs : List FnArg

/-- Model of `syn::Visibility`. -/
inductive Visibility where
  | public
  | restricted (scope : String)
  | inherited
deriving DecidableEq, Repr

/-- Model of `syn::ItemFn`. -/
structure ItemFn where
  vis : Visibility
  sig : Signature

/-- Model of `syn::Field`: an optional name (none for positional fields)
and a type. -/
structure Field where
  ident : Option String
  ty : Ty

/-- Shape of a struct body: named fields, tuple fields, or a unit struct. -/
inductive FieldsKind where
  | named
  | unnamed
  | unit
deriving DecidableEq, Repr

/-- Model of `syn::ItemStruct`. -/
structure ItemStruct where
  attrs : List Attribute
  ident : String
  kind : FieldsKind
  fields : List Field

/-- Model of `syn::Variant` of an enum. -/
structure Variant where
  ident : String
  fields : List Field

/-- Model of `syn::ItemEnum`. -/
structure ItemEnum where
  attrs : List Attribute
  ident : String
  variants : List Variant

/-- Model of `syn::Item` restricted to the variants the program matches on;
everything else is `Other`. -/
inductive Item where
  | Fn (f : ItemFn)
  | Struct (s : ItemStruct)
  | Enum (e : ItemEnum)
  | Other

/-- Model of `syn::File`: an ordered sequence of top-level items. -/
structure File where
  items : List Item

/-! ### Output data model (the Idl* structs) -/

structure IdlArgument where
  name : String
  type_name : String
deriving DecidableEq, Repr

structure IdlAccountMeta where
  name : String
  is_mut : Bool
  is_signer : Bool
deriving DecidableEq, Repr

structure IdlInstruction where
  name : String
  args : List IdlArgument
  accounts : List IdlAccountMeta
deriving DecidableEq, Repr

structure IdlField where
  name : String
  type_name : String
deriving DecidableEq, Repr

structure IdlAccount where
  name : String
  type_name : String
  fields : List IdlField
deriving DecidableEq, Repr

structure IdlType where
  name : String
  type_def : String
deriving DecidableEq, Repr

/-! ### Type rendering (embedding of `type_to_string`, i.e. `quote!(#ty)`) -/

mutual

/-- Embedding of `type_to_string`: renders a type expression to its token
text, with single spaces between tokens as `quote!` produces. -/
def type_to_string : Ty → String
  | Ty.path segments args =>
      String.intercalate " :: " segments ++
        (match args with
         | [] => ""
         | _ => " < " ++ String.intercalate " , " (renderTyList args) ++ " >")
  | Ty.ref inner => "& " ++ type_to_string inner
  | Ty.tuple elems => "( " ++ String.intercalate " , " (renderTyList elems) ++ " )"
  | Ty.arr elem len => "[ " ++ type_to_string elem ++ " ; " ++ toString len ++ " ]"

/-- Renders each type in a list. -/
def renderTyList : List Ty → List String
  | [] => []
  | t :: ts => type_to_string t :: renderTyList ts

end

/-- Token rendering of an attribute, as `quote!` would emit it. -/
def renderAttr (a : Attribute) : String :=
  "# [" ++ String.intercalate " :: " a.path ++ "]"

/-- Token rendering of a field. -/
def renderField (f : Field) : String :=
  match f.ident with
  | some n => n ++ " : " ++ type_to_string f.ty
  | none => type_to_string f.ty

/-- Embedding of `quote!(#item_struct)`: the full re-rendering of a struct
declaration, attributes and header included. -/
def renderItemStruct (s : ItemStruct) : String :=
  String.join (s.attrs.map (fun a => renderAttr a ++ " ")) ++
    "struct " ++ s.ident ++
    (match s.kind with
     | FieldsKind.named =>
         " \x7b " ++ String.intercalate " , " (s.fields.map renderField) ++ " \x7d"
     | FieldsKind.unnamed =>
         " ( " ++ String.intercalate " , " (s.fields.map renderField) ++ " ) ;"
     | FieldsKind.unit => " ;")

/-- Token rendering of an enum variant. -/
def renderVariant (v : Variant) : String :=
  v.ident ++
    (match v.fields with
     | [] => ""
     | fs => " ( " ++ String.intercalate " , " (fs.map renderField) ++ " )")

/-- Embedding of `quote!(#item_enum)`: the full re-rendering of an enum
declaration. -/
def renderItemEnum (e : ItemEnum) : String :=
  String.join (e.attrs.map (fun a => renderAttr a ++ " ")) ++
    "enum " ++ e.ident ++
    " \x7b " ++ String.intercalate " , " (e.variants.map renderVariant) ++ " \x7d"

/-! ### Extraction functions (embedding of main.rs lines 126-248) -/

/-- Embedding of `syn::Path::is_ident`: the path is exactly one segment equal
to the given name. -/
def pathIsIdent (p : List String) (s : String) : Bool :=
  p == [s]

/-- Embedding of `is_instruction_fn` (main.rs line 140): the visibility
matches `syn::Visibility::Public(_)`. -/
def is_instruction_fn (f : ItemFn) : Bool :=
  match f.vis with
  | Visibility.public => true
  | _ => false

/-- Embedding of `parse_instruction_fn` (main.rs line 144). -/
def parse_instruction_fn (f : ItemFn) : IdlInstruction :=
  { name := f.sig.ident
    args := f.sig.inputs.filterMap (fun arg =>
      match arg with
      | FnArg.typed p t =>
          some { name := (match p with
                          | Pat.ident n => n
                          | _ => "_")
                 type_name := type_to_string t }
      | _ => none)
    accounts := [] }

/-- Embedding of `collect_instructions` (main.rs line 126). -/
def collect_instructions (ast : File) : List IdlInstruction :=
  ast.items.filterMap (fun item =>
    match item with
    | Item.Fn f => if is_instruction_fn f then some (parse_instruction_fn f) else none
    | _ => none)

/-- Embedding of `is_account_struct` (main.rs line 190). -/
def is_account_struct (s : ItemStruct) : Bool :=
  s.attrs.any (fun attr =>
    pathIsIdent attr.path "account" || pathIsIdent attr.path "derive")

/-- Embedding of `parse_account_struct` (main.rs line 197). -/
def parse_account_struct (s : ItemStruct) : IdlAccount :=
  { name := s.ident
    type_name := s.ident
    fields := s.fields.filterMap (fun field =>
      field.ident.map (fun n =>
        { name := n, type_name := type_to_string field.ty })) }

/-- Embedding of `collect_accounts` (main.rs line 176). -/
def collect_accounts (ast : File) : List IdlAccount :=
  ast.items.filterMap (fun item =>
    match item with
    | Item.Struct s => if is_account_struct s then some (parse_account_struct s) else none
    | _ => none)

/-- Embedding of `parse_type_struct` (main.rs line 236). -/
def parse_type_struct (s : ItemStruct) : IdlType :=
  { name := s.ident, type_def := renderItemStruct s }

/-- Embedding of `parse_type_enum` (main.rs line 243). -/
def parse_type_enum (e : ItemEnum) : IdlType :=
  { name := e.ident, type_def := renderItemEnum e }

/-- Embedding of `collect_types` (main.rs line 216). -/
def collect_types (ast : File) : List IdlType :=
  ast.items.filterMap (fun item =>
    match item with
    | Item.Struct s => if is_account_struct s then none else some (parse_type_struct s)
    | Item.Enum e => some (parse_type_enum e)
    | _ => none)

/-! ### Manifest reader (embedding of `extract_program_name`, main.rs line 250) -/

/-- Model of `toml::Value`. -/
inductive TomlValue where
  | str (s : String)
  | int (n : Int)
  | boolean (b : Bool)
  | table (entries : List (String × TomlValue))
  | array (xs : List TomlValue)

/-- Embedding of `toml::Value::get` on a table: first entry with the key. -/
def tomlGet (t : List (String × TomlValue)) (key : String) : Option TomlValue :=
  (t.find? (fun kv => kv.fst == key)).map (fun kv => kv.snd)

/-- Embedding of `toml::Value::as_table`. -/
def asTable : TomlValue → Option (List (String × TomlValue))
  | TomlValue.table t => some t
  | _ => none

/-- Embedding of `toml::Value::as_str`. -/
def asStr : TomlValue → Option String
  | TomlValue.str s => some s
  | _ => none

/-- The error kinds `extract_program_name` can produce: propagated read and
parse failures, and the two explicit `Invalid Cargo.toml` errors. -/
inductive ConfigError where
  | readFailure
  | parseFailure
  | missingPackage
  | missingName
deriving DecidableEq, Repr

/-- Outcome of reading and parsing the manifest file, the two effects the
function performs before inspecting the document: the file may be unreadable,
it may fail to parse as TOML, or it parses to a top-level table. -/
inductive ManifestInput where
  | unreadable
  | unparseable
  | parsed (manifest : List (String × TomlValue))

/-- Embedding of `extract_program_name` (main.rs line 250): the two `?`
propagations become the first two alternatives, then
`manifest.get("package").and_then(as_table)` and
`package.get("name").and_then(as_str)` with their `ok_or_else` errors. -/
def extract_program_name : ManifestInput → Except ConfigError String
  | ManifestInput.unreadable => Except.error ConfigError.readFailure
  | ManifestInput.unparseable => Except.error ConfigError.parseFailure
  | ManifestInput.parsed manifest =>
    match (tomlGet manifest "package").bind asTable with
    | none => Except.error ConfigError.missingPackage
    | some package =>
      match (tomlGet package "name").bind asStr with
      | none => Except.error ConfigError.missingName
      | some name => Except.ok name

/-! ### Spec-worded definitions, used to state the claims against the code -/

/-- Stated from the spec wording: a record is classified as an account when it
carries at least one attribute whose path is the explicit `account` marker or
the `derive` marker. -/
def classifiedAsAccount (s : ItemStruct) : Bool :=
  s.attrs.any (fun a => a.path == ["account"] || a.path == ["derive"])

/-- Stated from the spec wording: a visibility flag is externally visible
exactly when it is plain `pub`. -/
def externallyVisible : Visibility → Bool
  | Visibility.public => true
  | _ => false

/-- Stated from the spec wording: the name an argument is emitted under, the
identifier when the binding pattern is a simple identifier and the
placeholder otherwise. -/
def patternName : Pat → String
  | Pat.ident n => n
  | _ => "_"

/-- True exactly on typed (non-receiver) parameters. -/
def isTypedArg : FnArg → Bool
  | FnArg.typed _ _ => true
  | _ => false

/-! ### Projections of the tree used to state and prove the claims -/

/-- The top-level struct items of a tree, in source order. -/
def structsOf (ast : File) : List ItemStruct :=
  ast.items.filterMap (fun item =>
    match item with
    | Item.Struct s => some s
    | _ => none)

/-- The top-level enum items of a tree, in source order. -/
def enumsOf (ast : File) : List ItemEnum :=
  ast.items.filterMap (fun item =>
    match item with
    | Item.Enum e => some e
    | _ => none)

/-- The top-level function items of a tree, in source order. -/
def fnsOf (ast : File) : List ItemFn :=
  ast.items.filterMap (fun item =>
    match item with
    | Item.Fn f => some f
    | _ => none)

/-- The name an item contributes to the accounts sequence, when any. -/
def acctNameOfItem : Item → Option String
  | Item.Struct s => if is_account_struct s then some s.ident else none
  | _ => none

/-- The name an item contributes to the types sequence, when any. -/
def typeNameOfItem : Item → Option String
  | Item.Struct s => if is_account_struct s then none else some s.ident
  | Item.Enum e => some e.ident
  | _ => none

/-- The declared name of a struct or enum item. -/
def declName : Item → Option String
  | Item.Struct s => some s.ident
  | Item.Enum e => some e.ident
  | _ => none

/-- The names of all top-level struct and enum declarations, in source
order, duplicates included. -/
def declNames (ast : File) : List String :=
  ast.items.filterMap declName

/-! ### Concrete syntax trees for counterexamples and witnesses -/

/-- A derive-annotated struct named Foo: classified as an account. -/
def cexStruct : ItemStruct :=
  { attrs := [{ path := ["derive"] }]
    ident := "Foo"
    kind := FieldsKind.named
    fields := [{ ident := some "x", ty := Ty.path ["u64"] [] }] }

/-- An enum also named Foo. -/
def cexEnum : ItemEnum :=
  { attrs := [], ident := "Foo", variants := [{ ident := "A", fields := [] }] }

/-- A tree holding both declarations named Foo: the account struct and the
enum. -/
def cexTree : File :=
  { items := [Item.Struct cexStruct, Item.Enum cexEnum] }

/-- An account-annotated struct named Vault. -/
def wStruct : ItemStruct :=
  { attrs := [{ path := ["account"] }]
    ident := "Vault"
    kind := FieldsKind.named
    fields := [{ ident := some "owner", ty := Ty.path ["Pubkey"] [] }] }

/-- An enum named Side, distinct from Vault. -/
def wEnum : ItemEnum :=
  { attrs := [], ident := "Side", variants := [] }

/-- A tree with pairwise distinct declaration names. -/
def wTree : File :=
  { items := [Item.Struct wStruct, Item.Enum wEnum] }

/-- A well-formed manifest table: a package table with a string name. -/
def wManifest : List (String × TomlValue) :=
  [("package", TomlValue.table [("name", TomlValue.str "bulk-idl")])]

/-- A manifest whose package table holds a non-string name. -/
def wBadNameManifest : List (String × TomlValue) :=
  [("package", TomlValue.table [("name", TomlValue.int 5)])]

/-- A manifest whose package key holds a non-table value. -/
def wBadPackageManifest : List (String × TomlValue) :=
  [("package", TomlValue.int 7)]

/-- A manifest whose package table lacks a name key. -/
def wNoNameManifest : List (String × TomlValue) :=
  [("package", TomlValue.table [("version", TomlValue.str "0.1.0")])]

/-! ### Helper lemmas -/

/-- The account extractor, characterised as a filter of the struct items
followed by the per-struct projection. -/
lemma collectAccounts_char (ast : File) :
    collect_accounts ast =
      ((structsOf ast).filter is_account_struct).map parse_account_struct := by
  show ast.items.filterMap _ = ((ast.items.filterMap _).filter _).map _
  induction ast.items with
  | nil => rfl
  | cons i rest ih =>
    cases i with
    | Struct s =>
        by_cases hp : is_account_struct s <;>
          simp [List.filterMap_cons, List.filter_cons, hp, ih]
    | Fn f => simpa [List.filterMap_cons] using ih
    | Enum e => simpa [List.filterMap_cons] using ih
    | Other => simpa [List.filterMap_cons] using ih

/-- The instruction extractor, characterised as a filter of the function
items followed by the per-function projection. -/
lemma collectInstructions_char (ast : File) :
    collect_instructions ast =
      ((fnsOf ast).filter is_instruction_fn).map parse_instruction_fn := by
  show ast.items.filterMap _ = ((ast.items.filterMap _).filter _).map _
  induction ast.items with
  | nil => rfl
  | cons i rest ih =>
    cases i with
    | Fn f =>
        by_cases hp : is_instruction_fn f <;>
          simp [List.filterMap_cons, List.filter_cons, hp, ih]
    | Struct s => simpa [List.filterMap_cons] using ih
    | Enum e => simpa [List.filterMap_cons] using ih
    | Other => simpa [List.filterMap_cons] using ih

/-- The emitted account name is the struct identifier. -/
lemma parse_account_struct_name (s : ItemStruct) :
    (parse_account_struct s).name = s.ident := rfl

/-- The emitted type name of a struct entry is the struct identifier. -/
lemma parse_type_struct_name (s : ItemStruct) :
    (parse_type_struct s).name = s.ident := rfl

/-- The emitted type name of an enum entry is the enum identifier. -/
lemma parse_type_enum_name (e : ItemEnum) :
    (parse_type_enum e).name = e.ident := rfl

/-- The names of the emitted accounts, item by item. -/
lemma accounts_names_eq (ast : File) :
    (collect_accounts ast).map IdlAccount.name = ast.items.filterMap acctNameOfItem := by
  show (ast.items.filterMap _).map _ = _
  induction ast.items with
  | nil => rfl
  | cons i rest ih =>
    cases i with
    | Struct s =>
        by_cases hp : is_account_struct s <;>
          simp [List.filterMap_cons, hp, acctNameOfItem, parse_account_struct_name, ih]
    | Fn f => simpa [List.filterMap_cons, acctNameOfItem] using ih
    | Enum e => simpa [List.filterMap_cons, acctNameOfItem] using ih
    | Other => simpa [List.filterMap_cons, acctNameOfItem] using ih

/-- The names of the emitted types, item by item. -/
lemma types_names_eq (ast : File) :
    (collect_types ast).map IdlType.name = ast.items.filterMap typeNameOfItem := by
  show (ast.items.filterMap _).map _ = _
  induction ast.items with
  | nil => rfl
  | cons i rest ih =>
    cases i with
    | Struct s =>
        by_cases hp : is_account_struct s <;>
          simp [List.filterMap_cons, hp, typeNameOfItem, parse_type_struct_name, ih]
    | Fn f => simpa [List.filterMap_cons, typeNameOfItem] using ih
    | Enum e => simpa [List.filterMap_cons, typeNameOfItem, parse_type_enum_name] using ih
    | Other => simpa [List.filterMap_cons, typeNameOfItem] using ih

/-- A name contributed to the accounts sequence is a declared name. -/
lemma acct_declName (i : Item) (n : String) (h : acctNameOfItem i = some n) :
    declName i = some n := by
  cases i with
  | Struct s =>
      by_cases hp : is_account_struct s
      · simp [acctNameOfItem, hp] at h
        simp [declName, h]
      · simp [acctNameOfItem, hp] at h
  | Fn f => simp [acctNameOfItem] at h
  | Enum e => simp [acctNameOfItem] at h
  | Other => simp [acctNameOfItem] at h

/-- A name contributed to the types sequence is a declared name. -/
lemma type_declName (i : Item) (n : String) (h : typeNameOfItem i = some n) :
    declName i = some n := by
  cases i with
  | Struct s =>
      by_cases hp : is_account_struct s
      · simp [typeNameOfItem, hp] at h
      · simp [typeNameOfItem, hp] at h
        simp [declName, h]
  | Fn f => simp [typeNameOfItem] at h
  | Enum e =>
      simp [typeNameOfItem] at h
      simp [declName, h]
  | Other => simp [typeNameOfItem] at h

/-- No single item contributes a name to both output sequences. -/
lemma acct_type_exclusive (i : Item) (n : String) (h : acctNameOfItem i = some n) :
    typeNameOfItem i = none := by
  cases i with
  | Struct s =>
      by_cases hp : is_account_struct s
      · simp [typeNameOfItem, hp]
      · simp [acctNameOfItem, hp] at h
  | Fn f => simp [acctNameOfItem] at h
  | Enum e => simp [acctNameOfItem] at h
  | Other => simp [acctNameOfItem] at h

/-- When the filterMap of a list has no duplicates, two list members sent to
the same value are equal. -/
lemma filterMap_nodup_inj {α β : Type} (g : α → Option β) :
    ∀ (l : List α), (l.filterMap g).Nodup →
      ∀ x, x ∈ l → ∀ y, y ∈ l → ∀ b, g x = some b → g y = some b → x = y := by
  intro l
  induction l with
  | nil =>
      intro _ x hx
      cases hx
  | cons a rest ih =>
    intro hnd x hx y hy b hgx hgy
    have hrest : (rest.filterMap g).Nodup := by
      rw [List.filterMap_cons] at hnd
      cases hga : g a with
      | none =>
          rw [hga] at hnd
          exact hnd
      | some c =>
          rw [hga] at hnd
          exact (List.nodup_cons.mp hnd).2
    have hnotmem : ∀ c, g a = some c → c ∉ rest.filterMap g := by
      intro c hga
      rw [List.filterMap_cons, hga] at hnd
      exact (List.nodup_cons.mp hnd).1
    rcases List.mem_cons.mp hx with hxa | hx
    · rcases List.mem_cons.mp hy with hya | hy
      · rw [hxa, hya]
      · exact absurd (List.mem_filterMap.mpr ⟨y, hy, hgy⟩) (hnotmem b (hxa ▸ hgx))
    · rcases List.mem_cons.mp hy with hya | hy
      · exact absurd (List.mem_filterMap.mpr ⟨x, hx, hgx⟩) (hnotmem b (hya ▸ hgy))
      · exact ih hrest x hx y hy b hgx hgy

/-! ### Claim theorems -/

/-- Claim C1, amended: for every syntax tree whose top-level struct and enum
declaration names are pairwise distinct, no name emitted in the accounts
sequence also appears in the types sequence. Without the distinctness
hypothesis the claim fails, see the counterexample. -/
theorem accounts_types_name_disjoint (ast : File) (h : (declNames ast).Nodup) :
    ∀ n, n ∈ (collect_accounts ast).map IdlAccount.name →
      n ∉ (collect_types ast).map IdlType.name := by
  intro n hacc htyp
  rw [accounts_names_eq] at hacc
  rw [types_names_eq] at htyp
  obtain ⟨i1, hi1, e1⟩ := List.mem_filterMap.mp hacc
  obtain ⟨i2, hi2, e2⟩ := List.mem_filterMap.mp htyp
  have h' : (ast.items.filterMap declName).Nodup := h
  have heq : i1 = i2 :=
    filterMap_nodup_inj declName ast.items h' i1 hi1 i2 hi2 n
      (acct_declName i1 n e1) (type_declName i2 n e2)
  rw [← heq] at e2
  rw [acct_type_exclusive i1 n e1] at e2
  cases e2

/-- Claim C1 counterexample: on a tree holding a derive-annotated struct Foo
and an enum Foo, the name Foo is emitted in both the accounts sequence and
the types sequence, so the two name sets are not disjoint. -/
theorem accounts_types_name_disjoint_cex :
    "Foo" ∈ (collect_accounts cexTree).map IdlAccount.name ∧
    "Foo" ∈ (collect_types cexTree).map IdlType.name := by
  constructor <;> decide

/-- Claim C1 witness: the amended theorem applied to a concrete tree with
distinct declaration names. -/
theorem accounts_types_name_disjoint_witness :
    "Vault" ∉ (collect_types wTree).map IdlType.name :=
  accounts_types_name_disjoint wTree (by decide) "Vault" (by decide)

/-- Claim C2: a top-level struct is classified as an account, and emitted by
the account extractor, exactly when it carries at least one attribute whose
path is the account marker or the derive marker; in particular a struct with
no such attribute is never emitted. -/
theorem account_classification_spec (ast : File) :
    (∀ s : ItemStruct, is_account_struct s = classifiedAsAccount s) ∧
    collect_accounts ast =
      ((structsOf ast).filter classifiedAsAccount).map parse_account_struct := by
  constructor
  · intro s
    rfl
  · rw [collectAccounts_char]
    rfl

/-- Claim C3: the instructions sequence holds exactly the top-level functions
with plain pub visibility, in source order; restricted and inherited
visibility are excluded. -/
theorem instructions_visibility_spec (ast : File) :
    (∀ f : ItemFn, is_instruction_fn f = externallyVisible f.vis) ∧
    collect_instructions ast =
      ((fnsOf ast).filter (fun f => externallyVisible f.vis)).map parse_instruction_fn := by
  constructor
  · intro f
    cases hv : f.vis <;> simp [is_instruction_fn, externallyVisible, hv]
  · rw [collectInstructions_char]
    have he : is_instruction_fn = fun f => externallyVisible f.vis := by
      funext f
      cases hv : f.vis <;> simp [is_instruction_fn, externallyVisible, hv]
    rw [he]

/-- Claim C4: the args of a parsed function hold one entry per typed
parameter in declaration order, named by the identifier pattern or the
placeholder, while receivers contribute nothing; the number of entries
equals the number of typed parameters. -/
theorem instruction_args_spec (f : ItemFn) :
    (parse_instruction_fn f).args =
      f.sig.inputs.filterMap (fun a =>
        match a with
        | FnArg.typed p t =>
            some { name := patternName p, type_name := type_to_string t }
        | FnArg.receiver => none) ∧
    (parse_instruction_fn f).args.length = (f.sig.inputs.filter isTypedArg).length := by
  constructor
  · show f.sig.inputs.filterMap _ = f.sig.inputs.filterMap _
    apply List.filterMap_congr
    intro a _
    cases a with
    | receiver => rfl
    | typed p t => cases p <;> rfl
  · show (f.sig.inputs.filterMap _).length = (f.sig.inputs.filter _).length
    generalize f.sig.inputs = l
    induction l with
    | nil => rfl
    | cons a rest ih =>
      cases a with
      | receiver => simpa [List.filterMap_cons, List.filter_cons, isTypedArg] using ih
      | typed p t => simp [List.filterMap_cons, List.filter_cons, isTypedArg, ih]

/-- Claim C5: the types sequence holds exactly one entry per non-account
top-level struct and per top-level enum, in source order, and each type_def
is the full re-rendering of the whole declaration. -/
theorem types_extraction_spec (ast : File) :
    collect_types ast =
      ast.items.filterMap (fun item =>
        match item with
        | Item.Struct s =>
            if classifiedAsAccount s then none
            else some { name := s.ident, type_def := renderItemStruct s }
        | Item.Enum e => some { name := e.ident, type_def := renderItemEnum e }
        | _ => none) ∧
    (∀ s : ItemStruct, (parse_type_struct s).type_def = renderItemStruct s) ∧
    (∀ e : ItemEnum, (parse_type_enum e).type_def = renderItemEnum e) := by
  refine ⟨rfl, fun s => rfl, fun e => rfl⟩

/-- Claim C6: a parsed account carries the struct name, a type_name equal to
that name, and one field entry per named field in declaration order with the
rendered type, skipping unnamed fields. -/
theorem account_fields_spec (s : ItemStruct) :
    (parse_account_struct s).name = s.ident ∧
    (parse_account_struct s).type_name = s.ident ∧
    (parse_account_struct s).fields =
      s.fields.filterMap (fun fl =>
        match fl.ident with
        | some n => some { name := n, type_name := type_to_string fl.ty }
        | none => none) := by
  refine ⟨rfl, rfl, ?_⟩
  show s.fields.filterMap _ = s.fields.filterMap _
  apply List.filterMap_congr
  intro fl _
  cases fl.ident <;> rfl

/-- Claim C8: instruction extraction never emits any account meta entry: the
accounts list of every parsed function, and of every entry of the collected
instruction sequence, is empty. -/
theorem instruction_accounts_empty (ast : File) (f : ItemFn) :
    (parse_instruction_fn f).accounts = [] ∧
    ((collect_instructions ast).all (fun i => i.accounts.isEmpty)) = true := by
  refine ⟨rfl, ?_⟩
  rw [collectInstructions_char, List.all_eq_true]
  intro i hi
  obtain ⟨f', _, rfl⟩ := List.mem_map.mp hi
  rfl

/-- Claim C9: every top-level struct lands in exactly one output sequence:
the accounts sequence holds one entry per account-classified struct, the
types sequence one entry per remaining struct plus one per enum, and the two
struct counts add up to the total number of top-level structs. -/
theorem struct_partition_spec (ast : File) :
    (collect_accounts ast).length = ((structsOf ast).filter is_account_struct).length ∧
    (collect_types ast).length =
      ((structsOf ast).filter (fun s => ! is_account_struct s)).length +
        (enumsOf ast).length ∧
    ((structsOf ast).filter is_account_struct).length +
      ((structsOf ast).filter (fun s => ! is_account_struct s)).length =
        (structsOf ast).length := by
  refine ⟨?_, ?_, ?_⟩
  · rw [collectAccounts_char, List.length_map]
  · show (ast.items.filterMap _).length =
      ((ast.items.filterMap _).filter _).length + (ast.items.filterMap _).length
    induction ast.items with
    | nil => rfl
    | cons i rest ih =>
      cases i with
      | Struct s =>
          by_cases hp : is_account_struct s
          · simp [List.filterMap_cons, List.filter_cons, hp, ih]
          · simp [List.filterMap_cons, List.filter_cons, hp, ih]
            omega
      | Enum e =>
          simp [List.filterMap_cons, ih]
          omega
      | Fn f => simpa [List.filterMap_cons] using ih
      | Other => simpa [List.filterMap_cons] using ih
  · show ((ast.items.filterMap _).filter _).length +
      ((ast.items.filterMap _).filter _).length = (ast.items.filterMap _).length
    generalize ast.items.filterMap _ = l
    induction l with
    | nil => rfl
    | cons s rest ih =>
      by_cases hp : is_account_struct s
      · simp [List.filter_cons, hp, ih]
        omega
      · simp [List.filter_cons, hp, ih]
        omega

/-- Claim C7: the manifest reader fails when the file cannot be read, cannot
be parsed as TOML, lacks a package section, or lacks a name field inside it,
and returns the declared name when a package table with a string name is
present. -/
theorem extract_program_name_spec :
    extract_program_name ManifestInput.unreadable =
        Except.error ConfigError.readFailure ∧
    extract_program_name ManifestInput.unparseable =
        Except.error ConfigError.parseFailure ∧
    (∀ manifest, tomlGet manifest "package" = none →
      extract_program_name (ManifestInput.parsed manifest) =
        Except.error ConfigError.missingPackage) ∧
    (∀ manifest pkg, tomlGet manifest "package" = some (TomlValue.table pkg) →
      tomlGet pkg "name" = none →
      extract_program_name (ManifestInput.parsed manifest) =
        Except.error ConfigError.missingName) ∧
    (∀ manifest pkg n, tomlGet manifest "package" = some (TomlValue.table pkg) →
      tomlGet pkg "name" = some (TomlValue.str n) →
      extract_program_name (ManifestInput.parsed manifest) = Except.ok n) := by
  refine ⟨rfl, rfl, ?_, ?_, ?_⟩
  · intro manifest h
    simp [extract_program_name, h]
  · intro manifest pkg h1 h2
    simp [extract_program_name, h1, h2, asTable]
  · intro manifest pkg n h1 h2
    simp [extract_program_name, h1, h2, asTable, asStr]

/-- Claim C7 witness: the theorem applied to three concrete manifests, one
without a package section, one whose package table lacks a name, and one
well formed. -/
theorem extract_program_name_spec_witness :
    extract_program_name (ManifestInput.parsed []) =
        Except.error ConfigError.missingPackage ∧
    extract_program_name (ManifestInput.parsed wNoNameManifest) =
        Except.error ConfigError.missingName ∧
    extract_program_name (ManifestInput.parsed wManifest) = Except.ok "bulk-idl" :=
  ⟨extract_program_name_spec.2.2.1 [] rfl,
   extract_program_name_spec.2.2.2.1 wNoNameManifest
     [("version", TomlValue.str "0.1.0")] rfl rfl,
   extract_program_name_spec.2.2.2.2 wManifest
     [("name", TomlValue.str "bulk-idl")] "bulk-idl" rfl rfl⟩

/-- Claim C10: a package key holding a non-table value, or a name field
holding a non-string value, makes the manifest reader fail with the matching
error rather than return a coerced value. -/
theorem extract_program_name_type_errors :
    (∀ manifest v, tomlGet manifest "package" = some v → asTable v = none →
      extract_program_name (ManifestInput.parsed manifest) =
        Except.error ConfigError.missingPackage) ∧
    (∀ manifest pkg v, tomlGet manifest "package" = some (TomlValue.table pkg) →
      tomlGet pkg "name" = some v → asStr v = none →
      extract_program_name (ManifestInput.parsed manifest) =
        Except.error ConfigError.missingName) := by
  constructor
  · intro manifest v h1 h2
    simp [extract_program_name, h1, h2]
  · intro manifest pkg v h1 h2 h3
    simp [extract_program_name, h1, h2, h3, asTable]

/-- Claim C10 witness: the theorem applied to a manifest whose package key
holds an integer and to one whose name field holds an integer. -/
theorem extract_program_name_type_errors_witness :
    extract_program_name (ManifestInput.parsed wBadPackageManifest) =
        Except.error ConfigError.missingPackage ∧
    extract_program_name (ManifestInput.parsed wBadNameManifest) =
        Except.error ConfigError.missingName :=
  ⟨extract_program_name_type_errors.1 wBadPackageManifest (TomlValue.int 7) rfl rfl,
   extract_program_name_type_errors.2 wBadNameManifest [("name", TomlValue.int 5)]
     (TomlValue.int 5) rfl rfl rfl⟩

end BulkIdl
